import Mathlib

/-!
Shallow embedding of `src/static/js/app.js` (CV Analyzer client-side UI script).

The script wires four independent widgets: a theme toggle, a mobile sidebar
toggle, a drag-and-drop upload zone, and an alert manager.  We embed each
event handler as a pure function over an explicit state record.

Conventions:
- JS strings (filenames, messages) are `List Char`; concrete literals are
  written `"...".toList`.
- DOM elements whose absence matters are `Option` fields or `Bool` flags.
- A handler that can abort with a thrown `TypeError` returns `HandlerResult`,
  whose `thrown` constructor carries the page state at the moment of the throw
  (DOM mutations performed before the throw persist in the browser).
-/

namespace CVAnalyzer

/-- Filenames, message texts and other JS strings, as character lists. -/
abbrev FileName := List Char

/-- Index of the last occurrence of `c` in `s`, counting from offset `i`
(helper for `jsLastIndexOf`). -/
def lastIndexAux (c : Char) : List Char → Nat → Option Nat
  | [], _ => none
  | x :: xs, i =>
    match lastIndexAux c xs (i + 1) with
    | some j => some j
    | none => if x = c then some i else none

/-- JS `String.prototype.lastIndexOf` for a single character: the index of the
last occurrence, or `-1` when the character does not occur. -/
def jsLastIndexOf (s : List Char) (c : Char) : Int :=
  match lastIndexAux c s 0 with
  | some i => (i : Int)
  | none => -1

/-- JS `Array.prototype.indexOf` on a list of filenames, scanning from
position `i`: the index of the first element equal to `x`, or `-1`. -/
def indexOfAux (x : FileName) : List FileName → Nat → Int
  | [], _ => -1
  | y :: ys, i => if y = x then (i : Int) else indexOfAux x ys (i + 1)

/-- Model of `file.name.toLowerCase().substring(file.name.lastIndexOf('.'))`
(source line 83).  JS `substring` clamps a negative start index to `0`, so a
dot-free name yields the whole lowercased name. -/
def extractExt (name : FileName) : FileName :=
  let lowered := name.map Char.toLower
  match lastIndexAux '.' name 0 with
  | some i => lowered.drop i
  | none => lowered

/-- The allow-list of accepted extensions (source line 61). -/
def allowedExtensions : List FileName :=
  [".pdf".toList, ".docx".toList, ".txt".toList]

/-- An alert node in the alert container: message text and severity
style-class (source lines 126-128). -/
structure AlertNode where
  message : FileName
  severity : String
deriving DecidableEq

/-- Page state while the upload-zone handlers are installed (so the zone and
the file input exist; `initUploadZone` returned early otherwise). -/
structure Dom where
  /-- Whether the zone carries the `dragover` class. -/
  zoneDragover : Bool
  /-- The `FileList` of the `cvFileInput` element, as a list of names. -/
  inputFiles : List FileName
  /-- Text content of the zone's `.upload-text` element; `none` when that
  element is absent. -/
  uploadText : Option FileName
  /-- Children of the `alertContainer` element, newest first; `none` when the
  container element is absent. -/
  alertContainer : Option (List AlertNode)
  /-- Whether the `uploadForm` element is present on the page. -/
  formPresent : Bool
  /-- How many times the upload form has been submitted. -/
  submitted : Nat
deriving DecidableEq

/-- Result of running an event handler: normal completion, or a thrown
`TypeError` (from dereferencing a missing element), carrying the state at the
moment of the throw. -/
inductive HandlerResult where
  | ok (dom : Dom)
  | thrown (dom : Dom)
deriving DecidableEq

/-- `true` iff the handler completed without throwing. -/
def HandlerResult.isOk : HandlerResult → Bool
  | .ok _ => true
  | .thrown _ => false

/-- Projection of a normally-completed result; `none` when it threw. -/
def HandlerResult.projOk {α : Type} (r : HandlerResult) (f : Dom → α) : Option α :=
  match r with
  | .ok d => some (f d)
  | .thrown _ => none

/-- The fixed rejection message (source line 85). -/
def rejectMessage : FileName :=
  "Only PDF, DOCX, and TXT files are accepted.".toList

/-- The status text written by `updateFileName` (source line 107). -/
def uploadingText (name : FileName) : FileName :=
  "Uploading: ".toList ++ name

/-- `updateFileName` (source lines 102-109): writes `Uploading: {name}` to the
zone's `.upload-text` element when it exists; no-op when it is absent.  (The
zone itself is present by the `Dom` convention above.) -/
def updateFileName (name : FileName) (dom : Dom) : Dom :=
  match dom.uploadText with
  | none => dom
  | some _ => { dom with uploadText := some (uploadingText name) }

/-- The DOM effect of `showAlert` (source lines 123-129): when the container
exists, a new alert node is built and prepended; when it is absent, no-op. -/
def showAlert (message : FileName) (severity : String) (dom : Dom) : Dom :=
  match dom.alertContainer with
  | none => dom
  | some alerts =>
    { dom with alertContainer := some (⟨message, severity⟩ :: alerts) }

/-- `uploadForm.submit()`: form submission, counted. -/
def submitForm (dom : Dom) : Dom :=
  { dom with submitted := dom.submitted + 1 }

/-- The `drop` listener (source lines 77-92).  It always clears the `dragover`
class; with a non-empty file list it validates the first file's extension
against the allow-list, rejecting via `showAlert`, and otherwise assigns the
whole dropped list to the input, updates the status text, and calls
`document.getElementById('uploadForm').submit()` — which throws when the form
element is absent. -/
def dropHandler (dom : Dom) (files : List FileName) : HandlerResult :=
  let dom1 : Dom := { dom with zoneDragover := false }
  match files with
  | [] => .ok dom1
  | file :: _ =>
    let ext := extractExt file
    if indexOfAux ext allowedExtensions 0 = -1 then
      .ok (showAlert rejectMessage "danger" dom1)
    else
      let dom2 : Dom := { dom1 with inputFiles := files }
      let dom3 := updateFileName file dom2
      if dom3.formPresent then .ok (submitForm dom3) else .thrown dom3

/-- The input `change` listener (source lines 94-99): with a non-empty
selection it updates the status text and submits the form (throwing when the
form element is absent); no extension check occurs here. -/
def changeHandler (dom : Dom) : HandlerResult :=
  match dom.inputFiles with
  | [] => .ok dom
  | file :: _ =>
    let dom2 := updateFileName file dom
    if dom2.formPresent then .ok (submitForm dom2) else .thrown dom2

/-- A fully-populated baseline page state used for concrete evaluations. -/
def domBase : Dom :=
  { zoneDragover := false
    inputFiles := []
    uploadText := some []
    alertContainer := some []
    formPresent := true
    submitted := 0 }

/-- State touched by the theme toggle: the displayed `data-theme` attribute on
the document root, and the persisted `localStorage` value under key `theme`. -/
structure ThemeState where
  displayed : String
  persisted : Option String
deriving DecidableEq

/-- The next theme computed on a toggle click (source line 21):
`current === 'dark' ? 'light' : 'dark'`. -/
def themeNext (current : String) : String :=
  if current = "dark" then "light" else "dark"

/-- The `themeToggle` click listener (source lines 19-25): applies the next
theme to the document root and persists it. -/
def themeToggleClick (s : ThemeState) : ThemeState :=
  { displayed := themeNext s.displayed
    persisted := some (themeNext s.displayed) }

/-- The document click listener installed by `initSidebarToggle` (source lines
46-52): removes the `show` class when the viewport width is at most 992 and
the click target is inside neither the sidebar nor the toggle button; returns
the (possibly updated) presence of the `show` class. -/
def sidebarDocumentClick (hasShow : Bool) (width : Nat)
    (insideSidebar insideToggle : Bool) : Bool :=
  if width ≤ 992 ∧ insideSidebar = false ∧ insideToggle = false then
    false
  else
    hasShow

/-- The container mutation and timer scheduling of `showAlert` (source lines
126-135), modelled over DOM-node identities: the freshly created alert node is
prepended to the container's children, and an auto-close callback for it is
scheduled to fire 5000 ms after injection.  Returns the new child list and the
callback's fire time. -/
def showAlertInject (now : Nat) (container : List Nat) (newId : Nat) :
    List Nat × Nat :=
  (newId :: container, now + 5000)

/-- The auto-close callback scheduled by `showAlert` (source lines 130-135):
it closes (removes) the alert only when the node still has a parent, i.e. is
still among the container's children; otherwise it does nothing. -/
def autoCloseCallback (id : Nat) (container : List Nat) : List Nat :=
  if id ∈ container then container.erase id else container

/-- Manual dismissal via the alert's close button (`data-bs-dismiss="alert"`,
source line 128): bootstrap closes the alert, removing the node. -/
def manualDismiss (id : Nat) (container : List Nat) : List Nat :=
  container.erase id

/-- `indexOfAux` returns `-1` exactly on the non-members, from any starting
offset: the JS test `allowedExtensions.indexOf(ext) === -1` is non-membership. -/
theorem indexOfAux_eq_neg_one_iff (x : FileName) (l : List FileName) :
    ∀ i : Nat, indexOfAux x l i = -1 ↔ x ∉ l := by
  induction l with
  | nil => intro i; simp [indexOfAux]
  | cons y ys ih =>
    intro i
    show (if y = x then (i : Int) else indexOfAux x ys (i + 1)) = -1 ↔ x ∉ y :: ys
    by_cases h : y = x
    · rw [if_pos h]
      constructor
      · intro hi
        exfalso
        omega
      · intro hnot
        exfalso
        apply hnot
        rw [← h]
        exact List.mem_cons_self y ys
    · rw [if_neg h, ih (i + 1)]
      constructor
      · intro hnys hmem
        rcases List.mem_cons.mp hmem with he | hm
        · exact h he.symm
        · exact hnys hm
      · intro hnc hm
        exact hnc (List.mem_cons_of_mem y hm)

@[simp] theorem updateFileName_zoneDragover (n : FileName) (d : Dom) :
    (updateFileName n d).zoneDragover = d.zoneDragover := by
  cases h : d.uploadText <;> simp [updateFileName, h]

@[simp] theorem updateFileName_inputFiles (n : FileName) (d : Dom) :
    (updateFileName n d).inputFiles = d.inputFiles := by
  cases h : d.uploadText <;> simp [updateFileName, h]

@[simp] theorem updateFileName_alertContainer (n : FileName) (d : Dom) :
    (updateFileName n d).alertContainer = d.alertContainer := by
  cases h : d.uploadText <;> simp [updateFileName, h]

@[simp] theorem updateFileName_formPresent (n : FileName) (d : Dom) :
    (updateFileName n d).formPresent = d.formPresent := by
  cases h : d.uploadText <;> simp [updateFileName, h]

@[simp] theorem updateFileName_submitted (n : FileName) (d : Dom) :
    (updateFileName n d).submitted = d.submitted := by
  cases h : d.uploadText <;> simp [updateFileName, h]

theorem updateFileName_uploadText_some (n t : FileName) (d : Dom)
    (h : d.uploadText = some t) :
    (updateFileName n d).uploadText = some (uploadingText n) := by
  simp [updateFileName, h]

/-- Sanity evaluations of the extension extraction on concrete names: the
last-dot suffix is lowercased, a trailing space survives, and a dot-free name
yields the whole (lowercased) name. -/
theorem extractExt_examples :
    extractExt "Resume.DOCX".toList = ".docx".toList ∧
    extractExt "archive.zip".toList = ".zip".toList ∧
    extractExt "README".toList = "readme".toList ∧
    extractExt "report.PDF ".toList = ".pdf ".toList := by
  decide

@[simp] theorem showAlert_zoneDragover (m : FileName) (s : String) (d : Dom) :
    (showAlert m s d).zoneDragover = d.zoneDragover := by
  cases h : d.alertContainer <;> simp [showAlert, h]

@[simp] theorem showAlert_inputFiles (m : FileName) (s : String) (d : Dom) :
    (showAlert m s d).inputFiles = d.inputFiles := by
  cases h : d.alertContainer <;> simp [showAlert, h]

@[simp] theorem showAlert_uploadText (m : FileName) (s : String) (d : Dom) :
    (showAlert m s d).uploadText = d.uploadText := by
  cases h : d.alertContainer <;> simp [showAlert, h]

@[simp] theorem showAlert_formPresent (m : FileName) (s : String) (d : Dom) :
    (showAlert m s d).formPresent = d.formPresent := by
  cases h : d.alertContainer <;> simp [showAlert, h]

@[simp] theorem showAlert_submitted (m : FileName) (s : String) (d : Dom) :
    (showAlert m s d).submitted = d.submitted := by
  cases h : d.alertContainer <;> simp [showAlert, h]

/-- C1 counterexample: with the upload-form element absent, an accepted drop
of `cv.pdf` and a non-empty picker selection both abort with a thrown error
instead of completing, refuting the claim that handling completes without
raising an error when the form is absent. -/
theorem C1_counterexample :
    (dropHandler { domBase with formPresent := false }
        ["cv.pdf".toList]).isOk = false ∧
    (changeHandler { domBase with formPresent := false
                                  inputFiles := ["cv.pdf".toList] }).isOk
      = false := by
  decide

/-- C1 (amended): the initializers' element checks leave exactly one unguarded
dereference — `document.getElementById('uploadForm').submit()` — so drop
handling throws precisely when a file is accepted while the upload form is
absent, and change handling throws precisely when the selection is non-empty
while the upload form is absent; every other case (empty drop, rejected drop,
empty selection, or form present) completes without error. -/
theorem C1_amended (dom : Dom) (files : List FileName) :
    ((dropHandler dom files).isOk = false ↔
      ∃ f rest, files = f :: rest ∧ extractExt f ∈ allowedExtensions ∧
        dom.formPresent = false) ∧
    ((changeHandler dom).isOk = false ↔
      dom.inputFiles ≠ [] ∧ dom.formPresent = false) := by
  constructor
  · cases files with
    | nil => simp [dropHandler, HandlerResult.isOk]
    | cons f rest =>
      by_cases hext : extractExt f ∈ allowedExtensions
      · have hidx : ¬ indexOfAux (extractExt f) allowedExtensions 0 = -1 := by
          rw [indexOfAux_eq_neg_one_iff]
          exact not_not_intro hext
        cases hform : dom.formPresent <;>
          simp [dropHandler, hidx, hform, hext, HandlerResult.isOk, submitForm]
      · have hidx : indexOfAux (extractExt f) allowedExtensions 0 = -1 :=
          (indexOfAux_eq_neg_one_iff _ _ 0).mpr hext
        simp [dropHandler, hidx, hext, HandlerResult.isOk]
  · cases hfiles : dom.inputFiles with
    | nil => simp [changeHandler, hfiles, HandlerResult.isOk]
    | cons f rest =>
      cases hform : dom.formPresent <;>
        simp [changeHandler, hfiles, hform, HandlerResult.isOk, submitForm]

/-- C2 counterexample: for the filename `virus.exe` the two selection paths
disagree — the drop path rejects (no submission), while the picker change
path submits it — refuting the claim that the allow-list check is applied
identically on both paths. -/
theorem C2_counterexample :
    (dropHandler domBase ["virus.exe".toList]).projOk Dom.submitted
        = some 0 ∧
    (changeHandler { domBase with inputFiles := ["virus.exe".toList] }).projOk
        Dom.submitted = some 1 := by
  decide

/-- C2 (amended): the two paths agree only on allow-listed filenames — with
the upload form present, the drop path submits exactly when the first file's
extracted extension is on the allow-list, while the picker change path
submits every non-empty selection whatever its extension. -/
theorem C2_amended (dom : Dom) (name : FileName) (rest : List FileName)
    (hform : dom.formPresent = true) :
    ((dropHandler dom (name :: rest)).projOk Dom.submitted
        = some (dom.submitted + 1) ↔ extractExt name ∈ allowedExtensions) ∧
    (dom.inputFiles = name :: rest →
      (changeHandler dom).projOk Dom.submitted = some (dom.submitted + 1)) := by
  constructor
  · by_cases hext : extractExt name ∈ allowedExtensions
    · have hidx : ¬ indexOfAux (extractExt name) allowedExtensions 0 = -1 := by
        rw [indexOfAux_eq_neg_one_iff]
        exact not_not_intro hext
      simp [dropHandler, hidx, hform, hext, HandlerResult.projOk, submitForm]
    · have hidx : indexOfAux (extractExt name) allowedExtensions 0 = -1 :=
        (indexOfAux_eq_neg_one_iff _ _ 0).mpr hext
      simp [dropHandler, hidx, hext, HandlerResult.projOk]
  · intro hfiles
    simp [changeHandler, hfiles, hform, HandlerResult.projOk, submitForm]

/-- Witness for C2 (amended) on a baseline page whose input already holds
`a.txt`, dropping or picking that same name. -/
theorem C2_amended_witness :
    ({ domBase with inputFiles := ["a.txt".toList] } : Dom).formPresent
        = true ∧
    (((dropHandler { domBase with inputFiles := ["a.txt".toList] }
          ("a.txt".toList :: [])).projOk Dom.submitted
        = some (({ domBase with inputFiles := ["a.txt".toList] } : Dom).submitted
            + 1) ↔ extractExt "a.txt".toList ∈ allowedExtensions) ∧
      (({ domBase with inputFiles := ["a.txt".toList] } : Dom).inputFiles
          = "a.txt".toList :: [] →
        (changeHandler { domBase with inputFiles := ["a.txt".toList] }).projOk
            Dom.submitted
          = some (({ domBase with
              inputFiles := ["a.txt".toList] } : Dom).submitted + 1))) :=
  ⟨rfl, C2_amended { domBase with inputFiles := ["a.txt".toList] }
    "a.txt".toList [] rfl⟩

/-- C3 counterexample: dropping two allow-listed files attaches both — at the
moment the form is submitted (submission count 1) the input holds 2 files,
refuting the claim that at most one file is attached at submission time. -/
theorem C3_counterexample :
    (dropHandler domBase ["a.pdf".toList, "b.pdf".toList]).projOk
        (fun d => (d.inputFiles.length, d.submitted)) = some (2, 1) ∧
    ¬ (2 ≤ 1) := by
  decide

/-- C3 (amended): only the first dropped file is validated and displayed, but
the entire dropped file list is assigned to the file input, so at an accepted
drop's submission the attached files are exactly the dropped ones — at most
one only when exactly one file was dropped. -/
theorem C3_amended (dom : Dom) (f : FileName) (rest : List FileName)
    (hext : extractExt f ∈ allowedExtensions)
    (hform : dom.formPresent = true) :
    (dropHandler dom (f :: rest)).projOk
        (fun d => (d.inputFiles, d.submitted))
      = some (f :: rest, dom.submitted + 1) := by
  have hidx : ¬ indexOfAux (extractExt f) allowedExtensions 0 = -1 := by
    rw [indexOfAux_eq_neg_one_iff]
    exact not_not_intro hext
  simp [dropHandler, hidx, hform, HandlerResult.projOk, submitForm]

/-- Witness for C3 (amended): a two-file drop of `a.pdf` and `b.pdf` on the
baseline page attaches both files while submitting once. -/
theorem C3_amended_witness :
    extractExt "a.pdf".toList ∈ allowedExtensions ∧
    domBase.formPresent = true ∧
    (dropHandler domBase ("a.pdf".toList :: ["b.pdf".toList])).projOk
        (fun d => (d.inputFiles, d.submitted))
      = some ("a.pdf".toList :: ["b.pdf".toList], domBase.submitted + 1) :=
  ⟨by decide, rfl,
    C3_amended domBase "a.pdf".toList ["b.pdf".toList] (by decide) rfl⟩

/-- C4: a drop whose first file's extracted extension (last-dot suffix,
lowercased) is on the allow-list is accepted: the dropped file list is
assigned to the file input, the zone status text becomes `Uploading: {name}`,
and the form is submitted exactly once — provided the upload form and the
status-text element are present. -/
theorem C4_drop_accept (dom : Dom) (name : FileName) (rest : List FileName)
    (t : FileName) (hext : extractExt name ∈ allowedExtensions)
    (hform : dom.formPresent = true) (ht : dom.uploadText = some t) :
    (dropHandler dom (name :: rest)).projOk
        (fun d => (d.inputFiles, d.uploadText, d.submitted))
      = some (name :: rest, some (uploadingText name), dom.submitted + 1) := by
  have hidx : ¬ indexOfAux (extractExt name) allowedExtensions 0 = -1 := by
    rw [indexOfAux_eq_neg_one_iff]
    exact not_not_intro hext
  simp [dropHandler, hidx, hform, ht, updateFileName, HandlerResult.projOk,
    submitForm]

/-- Witness for C4: the spec's concrete scenario, dropping `Resume.DOCX` on
the fully-populated baseline page. -/
theorem C4_drop_accept_witness :
    extractExt "Resume.DOCX".toList ∈ allowedExtensions ∧
    domBase.formPresent = true ∧
    domBase.uploadText = some [] ∧
    (dropHandler domBase ["Resume.DOCX".toList]).projOk
        (fun d => (d.inputFiles, d.uploadText, d.submitted))
      = some (["Resume.DOCX".toList],
          some (uploadingText "Resume.DOCX".toList), domBase.submitted + 1) :=
  ⟨by decide, rfl, rfl,
    C4_drop_accept domBase "Resume.DOCX".toList [] [] (by decide) rfl rfl⟩

/-- C5: a drop whose first file's extracted extension is not on the allow-list
is rejected: a danger-severity alert with the fixed message is prepended to
the alert container, and nothing else changes — the file input, status text
and submission count are untouched (only the `dragover` class is cleared). -/
theorem C5_drop_reject (dom : Dom) (name : FileName) (rest : List FileName)
    (cs : List AlertNode) (hext : extractExt name ∉ allowedExtensions)
    (hc : dom.alertContainer = some cs) :
    dropHandler dom (name :: rest)
      = .ok { dom with zoneDragover := false,
                       alertContainer :=
                         some (⟨rejectMessage, "danger"⟩ :: cs) } := by
  have hidx : indexOfAux (extractExt name) allowedExtensions 0 = -1 :=
    (indexOfAux_eq_neg_one_iff _ _ 0).mpr hext
  simp [dropHandler, hidx, showAlert, hc]

/-- Witness for C5 on the baseline page at the three kinds of rejected names
the claim lists: a disallowed extension (`archive.zip`), an allow-listed
extension spoiled by a trailing space (`report.PDF `), and a name with no
extension at all (`README`). -/
theorem C5_drop_reject_witness :
    (extractExt "archive.zip".toList ∉ allowedExtensions ∧
      dropHandler domBase ["archive.zip".toList]
        = .ok { domBase with zoneDragover := false,
                             alertContainer :=
                               some [⟨rejectMessage, "danger"⟩] }) ∧
    (extractExt "report.PDF ".toList ∉ allowedExtensions ∧
      dropHandler domBase ["report.PDF ".toList]
        = .ok { domBase with zoneDragover := false,
                             alertContainer :=
                               some [⟨rejectMessage, "danger"⟩] }) ∧
    (extractExt "README".toList ∉ allowedExtensions ∧
      dropHandler domBase ["README".toList]
        = .ok { domBase with zoneDragover := false,
                             alertContainer :=
                               some [⟨rejectMessage, "danger"⟩] }) :=
  ⟨⟨by decide, C5_drop_reject domBase "archive.zip".toList [] [] (by decide) rfl⟩,
    ⟨by decide, C5_drop_reject domBase "report.PDF ".toList [] [] (by decide) rfl⟩,
    ⟨by decide, C5_drop_reject domBase "README".toList [] [] (by decide) rfl⟩⟩

/-- C6: a change event with a non-empty selection updates the status text to
`Uploading: {name}` and submits the form exactly once, with no extension
check: the conclusion holds for an arbitrary first filename, with no
hypothesis on its extension. -/
theorem C6_change_submit (dom : Dom) (name : FileName) (rest : List FileName)
    (t : FileName) (hfiles : dom.inputFiles = name :: rest)
    (hform : dom.formPresent = true) (ht : dom.uploadText = some t) :
    (changeHandler dom).projOk
        (fun d => (d.inputFiles, d.uploadText, d.submitted))
      = some (name :: rest, some (uploadingText name), dom.submitted + 1) := by
  simp [changeHandler, hfiles, hform, ht, updateFileName, HandlerResult.projOk,
    submitForm]

/-- Witness for C6: a picker selection of `virus.exe` — an extension the drop
path would reject — is still displayed and submitted. -/
theorem C6_change_submit_witness :
    ({ domBase with inputFiles := ["virus.exe".toList] } : Dom).inputFiles
        = ["virus.exe".toList] ∧
    ({ domBase with inputFiles := ["virus.exe".toList] } : Dom).formPresent
        = true ∧
    ({ domBase with inputFiles := ["virus.exe".toList] } : Dom).uploadText
        = some [] ∧
    (changeHandler { domBase with inputFiles := ["virus.exe".toList] }).projOk
        (fun d => (d.inputFiles, d.uploadText, d.submitted))
      = some (["virus.exe".toList], some (uploadingText "virus.exe".toList),
          ({ domBase with inputFiles := ["virus.exe".toList] } : Dom).submitted
            + 1) :=
  ⟨rfl, rfl, rfl,
    C6_change_submit { domBase with inputFiles := ["virus.exe".toList] }
      "virus.exe".toList [] [] rfl rfl rfl⟩

/-- C7: each theme-toggle click replaces a displayed theme in \x7blight, dark\x7d
with its opposite, so toggling twice returns the displayed theme to its
original value, and after every toggle (first and second) the persisted value
equals the displayed value. -/
theorem C7_theme_toggle (s : ThemeState)
    (h : s.displayed = "light" ∨ s.displayed = "dark") :
    (themeToggleClick (themeToggleClick s)).displayed = s.displayed ∧
    (themeToggleClick s).persisted = some (themeToggleClick s).displayed ∧
    (themeToggleClick (themeToggleClick s)).persisted
      = some (themeToggleClick (themeToggleClick s)).displayed := by
  refine ⟨?_, rfl, rfl⟩
  simp only [themeToggleClick]
  rcases h with h | h <;> rw [h] <;> decide

/-- Witness for C7 at the concrete state (displayed `light`, nothing
persisted yet). -/
theorem C7_theme_toggle_witness :
    ((⟨"light", none⟩ : ThemeState).displayed = "light" ∨
      (⟨"light", none⟩ : ThemeState).displayed = "dark") ∧
    ((themeToggleClick (themeToggleClick ⟨"light", none⟩)).displayed
        = (⟨"light", none⟩ : ThemeState).displayed ∧
      (themeToggleClick ⟨"light", none⟩).persisted
        = some (themeToggleClick ⟨"light", none⟩).displayed ∧
      (themeToggleClick (themeToggleClick ⟨"light", none⟩)).persisted
        = some (themeToggleClick (themeToggleClick ⟨"light", none⟩)).displayed) :=
  ⟨Or.inl rfl, C7_theme_toggle ⟨"light", none⟩ (Or.inl rfl)⟩

/-- C8: an injected alert is in the container immediately after injection, its
auto-close callback is scheduled to fire at most 5000 ms after injection, the
alert is absent once that callback runs, and if the alert was manually
dismissed before the callback fires, the callback is a no-op (it returns the
container unchanged rather than failing). -/
theorem C8_alert_lifecycle (now : Nat) (container : List Nat) (id : Nat)
    (hfresh : id ∉ container) :
    id ∈ (showAlertInject now container id).1 ∧
    (showAlertInject now container id).2 ≤ now + 5000 ∧
    id ∉ autoCloseCallback id (showAlertInject now container id).1 ∧
    autoCloseCallback id (manualDismiss id (showAlertInject now container id).1)
      = manualDismiss id (showAlertInject now container id).1 := by
  refine ⟨List.mem_cons_self _ _, le_refl _, ?_, ?_⟩
  · show id ∉ autoCloseCallback id (id :: container)
    simp only [autoCloseCallback]
    rw [if_pos (List.mem_cons_self id container), List.erase_cons_head]
    exact hfresh
  · show autoCloseCallback id (manualDismiss id (id :: container))
      = manualDismiss id (id :: container)
    simp only [manualDismiss, autoCloseCallback, List.erase_cons_head]
    rw [if_neg hfresh]

/-- Witness for C8 with an empty container and node id 0 injected at time 0. -/
theorem C8_alert_lifecycle_witness :
    (0 : Nat) ∉ ([] : List Nat) ∧
    ((0 : Nat) ∈ (showAlertInject 0 [] 0).1 ∧
      (showAlertInject 0 [] 0).2 ≤ 0 + 5000 ∧
      (0 : Nat) ∉ autoCloseCallback 0 (showAlertInject 0 [] 0).1 ∧
      autoCloseCallback 0 (manualDismiss 0 (showAlertInject 0 [] 0).1)
        = manualDismiss 0 (showAlertInject 0 [] 0).1) :=
  ⟨by decide, C8_alert_lifecycle 0 [] 0 (by decide)⟩

/-- C9: at viewport width at most 992, a document click outside both the
sidebar and its toggle button removes the `show` class, while a document click
inside either leaves the class unchanged (the document listener does not
remove it). -/
theorem C9_sidebar_click (hasShow : Bool) (width : Nat)
    (insideSidebar insideToggle : Bool) (hw : width ≤ 992) :
    (insideSidebar = false → insideToggle = false →
      sidebarDocumentClick hasShow width insideSidebar insideToggle = false) ∧
    ((insideSidebar = true ∨ insideToggle = true) →
      sidebarDocumentClick hasShow width insideSidebar insideToggle = hasShow) := by
  constructor
  · intro h1 h2
    simp only [sidebarDocumentClick]
    rw [if_pos ⟨hw, h1, h2⟩]
  · intro h
    simp only [sidebarDocumentClick]
    rw [if_neg]
    rintro ⟨-, h1, h2⟩
    rcases h with h | h
    · rw [h] at h1
      exact Bool.noConfusion h1
    · rw [h] at h2
      exact Bool.noConfusion h2

/-- Witness for C9 at width 400 (narrow viewport), sidebar shown: an outside
click removes `show`; a click inside the sidebar keeps it. -/
theorem C9_sidebar_click_witness :
    (400 : Nat) ≤ 992 ∧
    ((false = false → false = false →
        sidebarDocumentClick true 400 false false = false) ∧
      ((false = true ∨ false = true) →
        sidebarDocumentClick true 400 false false = true)) ∧
    (true = false → false = false →
        sidebarDocumentClick true 400 true false = false) ∧
    ((true = true ∨ false = true) →
        sidebarDocumentClick true 400 true false = true) :=
  ⟨by decide, C9_sidebar_click true 400 false false (by decide),
    C9_sidebar_click true 400 true false (by decide)⟩

/-- C10: a drop carrying zero files only clears the `dragover` class on the
zone; the file input, status text, alert container and submission count are
all left unchanged, no alert is shown and nothing is thrown. -/
theorem C10_empty_drop (dom : Dom) :
    dropHandler dom [] = .ok { dom with zoneDragover := false } := rfl

end CVAnalyzer
